import Mathlib

/-!
Verification development for the llmcli command-line client (Go sources in
`main.go` and `chatgpt.go`).  The definitions below are a shallow embedding of
the functions of `main.go`: Go byte slices become `List Nat` (one entry per
byte, each below 256), Go strings that carry raw bytes become `List Nat` as
well, and the external collaborators (file system, clock, AWS transport,
content sniffing from the Go standard library) become explicit parameters.
`src/main.go` holds the current revision of the program first, followed by an
earlier revision of the same file; definitions taken from the earlier revision
say so in their doc comments.
-/

set_option autoImplicit false

/-- UTF-8 encoding of one character, as byte values (Go strings are UTF-8). -/
def utf8Encode (c : Char) : List Nat :=
  let n := c.toNat
  if n < 0x80 then [n]
  else if n < 0x800 then [0xC0 + n / 0x40, 0x80 + n % 0x40]
  else if n < 0x10000 then
    [0xE0 + n / 0x1000, 0x80 + (n / 0x40) % 0x40, 0x80 + n % 0x40]
  else
    [0xF0 + n / 0x40000, 0x80 + (n / 0x1000) % 0x40, 0x80 + (n / 0x40) % 0x40, 0x80 + n % 0x40]

/-- The bytes of a Lean string literal, mirroring a Go string literal. -/
def strBytes (s : String) : List Nat :=
  s.data.foldr (fun c acc => utf8Encode c ++ acc) []

/-- A UTF-8 continuation byte (`10xxxxxx`). -/
def isCont (b : Nat) : Bool := decide (0x80 ≤ b ∧ b < 0xC0)

/-- Model of Go `utf8.Valid`: the byte list is well-formed UTF-8 (RFC 3629:
no overlong forms, no surrogates, nothing above U+10FFFF). -/
def utf8Valid : List Nat → Bool
  | [] => true
  | b0 :: rest =>
    if b0 < 0x80 then utf8Valid rest
    else if b0 < 0xC2 then false
    else if b0 < 0xE0 then
      match rest with
      | b1 :: r => isCont b1 && utf8Valid r
      | [] => false
    else if b0 < 0xF0 then
      match rest with
      | b1 :: b2 :: r =>
        (if b0 = 0xE0 then decide (0xA0 ≤ b1 ∧ b1 < 0xC0)
         else if b0 = 0xED then decide (0x80 ≤ b1 ∧ b1 < 0xA0)
         else isCont b1) && isCont b2 && utf8Valid r
      | _ => false
    else if b0 < 0xF5 then
      match rest with
      | b1 :: b2 :: b3 :: r =>
        (if b0 = 0xF0 then decide (0x90 ≤ b1 ∧ b1 < 0xC0)
         else if b0 = 0xF4 then decide (0x80 ≤ b1 ∧ b1 < 0x90)
         else isCont b1) && isCont b2 && isCont b3 && utf8Valid r
      | _ => false
    else false

/-- ASCII whitespace byte, the fast path of Go `bytes.TrimSpace`
(`unicode.IsSpace` over ASCII); no claim distinguishes the multi-byte
whitespace runes that the Go unicode tables would also trim. -/
def isSpaceByte (b : Nat) : Bool :=
  b = 9 || b = 10 || b = 11 || b = 12 || b = 13 || b = 32

/-- Model of Go `bytes.TrimSpace` (over the ASCII whitespace set). -/
def trimSpaceB (l : List Nat) : List Nat :=
  ((l.dropWhile isSpaceByte).reverse.dropWhile isSpaceByte).reverse

/-- `main.go`: `tagDocOpen`. -/
def tagDocOpen : String := "<document>\n"

/-- `main.go`: `tagDocClose`. -/
def tagDocClose : String := "</document>\n"

/-- Error outcomes of the embedded functions; one constructor per distinct
error return of `main.go` (each Go `errors.New` / `fmt.Errorf` site). -/
inductive Err where
  /-- `maximum document size supported is 50Mb` -/
  | sizeLimit
  /-- `file %s is of unsupported content-type %s` -/
  | unsupportedType (p ct : String)
  /-- `empty prompt: please feed it over stdin and/or use the -q flag` -/
  | emptyPrompt
  /-- `can only take valid utf8 data on stdin` -/
  | invalidUtf8Stdin
deriving DecidableEq

deriving instance DecidableEq for Except

/-- `main.go` `readPrompt`: merge the CLI query `q` and the bytes read from
stdin into one prompt.  The interactive-terminal gating (stdin is skipped when
it is a terminal and `-q` was given) happens before the bytes exist, so the
model receives the bytes that were read (`[]` when reading was skipped). -/
def readPrompt (q : String) (stdinData : List Nat) : Except Err (List Nat) :=
  if (trimSpaceB stdinData).length = 0 ∧ q = "" then .error .emptyPrompt
  else if ¬ utf8Valid stdinData then .error .invalidUtf8Stdin
  else if q = "" then .ok stdinData
  else if (trimSpaceB stdinData).length ≠ 0 then
    .ok (strBytes tagDocOpen ++ stdinData ++ strBytes tagDocClose ++ [10] ++ strBytes q)
  else .ok (strBytes q)

/-- Image formats of `types.ImageFormat` used by `main.go`. -/
inductive ImageFormat where
  | jpeg | png | gif | webp
deriving DecidableEq

/-- Document formats of `types.DocumentFormat` used by `main.go`. -/
inductive DocumentFormat where
  | pdf | md | html | doc | docx | csv | txt
deriving DecidableEq

/-- `types.ContentBlock` variants that `main.go` constructs: text (Go string,
kept as bytes), image (format and source bytes), document (format, name and
source bytes). -/
inductive ContentBlock where
  | text (value : List Nat)
  | image (format : ImageFormat) (source : List Nat)
  | document (format : DocumentFormat) (name : List Nat) (source : List Nat)
deriving DecidableEq

/-- Go `filepath.Ext`: the suffix of `p` from its final dot, stopping at a
path separator; empty when there is no dot in the last element. -/
def extAux : List Char → List Char → Option String
  | [], _ => none
  | c :: rest, acc =>
    if c = '/' then none
    else if c = '.' then some (String.mk (c :: acc))
    else extAux rest (c :: acc)

/-- Go `filepath.Ext` (with `/` as the path separator). -/
def ext (p : String) : String := (extAux p.data.reverse []).getD ""

/-- Go `filepath.Base` (with `/` as the path separator). -/
def base (p : String) : String :=
  if p.data = [] then "."
  else
    let r := p.data.reverse.dropWhile (· = '/')
    if r = [] then "/" else String.mk ((r.takeWhile (· ≠ '/')).reverse)

/-- Go `strings.HasPrefix`, computed over the character lists. -/
def strStartsWith (s pre : String) : Bool := pre.data.isPrefixOf s.data

/-- Go `strings.HasSuffix`, computed over the character lists. -/
def strEndsWith (s suf : String) : Bool := suf.data.isSuffixOf s.data

/-- Go `strings.TrimSuffix` (lengths in characters; the names involved in the
claims are ASCII, where character and byte counts agree). -/
def trimSuffix (s suf : String) : String :=
  if strEndsWith s suf then String.mk (s.data.take (s.data.length - suf.data.length)) else s

/-- ASCII lowering, the fragment of Go `strings.ToLower` exercised by the
extension switch of `contentBlockFromFile` (extensions are ASCII). -/
def asciiLower (s : String) : String :=
  String.mk (s.data.map fun c => if 'A' ≤ c ∧ c ≤ 'Z' then Char.ofNat (c.toNat + 32) else c)

/-- The extension switch of `contentBlockFromFile` (current revision of
`main.go`): map the lowercased extension to a document format, defaulting to
`txt` when the sniffed content type is `text/plain; charset=utf-8`. -/
def docFormat? (p ct : String) : Option DocumentFormat :=
  let e := asciiLower (ext p)
  if e = ".pdf" then some .pdf
  else if e = ".md" ∨ e = ".mkd" then some .md
  else if e = ".html" then some .html
  else if e = ".doc" then some .doc
  else if e = ".docx" then some .docx
  else if e = ".csv" then some .csv
  else if e = ".txt" then some .txt
  else if ct = "text/plain; charset=utf-8" then some .txt
  else none

/-- Append a final newline byte unless the list already ends with one
(`if text[len(text)-1] != '\n'` in the Go source; the list is nonempty at
every use site). -/
def ensureNL (t : List Nat) : List Nat :=
  if t.getLast? = some 10 then t else t ++ [10]

/-- The wrapped-text conversion of `contentBlockFromFile`: the file bytes
inside `<document>` tags with an embedded `<filename>` tag
(`tagDocOpen` without its trailing newline, per the source). -/
def wrapFileText (p : String) (b : List Nat) : List Nat :=
  ensureNL (strBytes "<document>" ++ strBytes "<filename>" ++ strBytes p
    ++ strBytes "</filename>\n" ++ b) ++ strBytes tagDocClose

/-- `main.go` `contentBlockFromFile` (current revision): `b` is the byte
content of file `p` (the read succeeded) and `ct` is the result of the Go
standard library call `http.DetectContentType(b)`. -/
def contentBlockFromFile (p : String) (b : List Nat) (ct : String) : Except Err ContentBlock :=
  if b.length > 50 * 2 ^ 20 then .error .sizeLimit
  else if strStartsWith ct "image/" then
    if ct = "image/jpeg" then .ok (.image .jpeg b)
    else if ct = "image/png" then .ok (.image .png b)
    else if ct = "image/gif" then .ok (.image .gif b)
    else if ct = "image/webp" then .ok (.image .webp b)
    else .error (.unsupportedType p ct)
  else
    let docName := strBytes (trimSuffix (base p) (ext p))
    match docFormat? p ct with
    | none => .error (.unsupportedType p ct)
    | some fmt =>
      if (fmt = .md ∨ fmt = .txt ∨ fmt = .csv) ∧ utf8Valid b then
        .ok (.text (wrapFileText p b))
      else .ok (.document fmt docName b)

/-- The rows of the attachment handler configuration `att-handlers.json`
(`attMatch` in `main.go`): a name prefix and a command line. -/
structure AttMatch where
  pfx : String
  cmd : List String
deriving DecidableEq

/-- The skip condition of `attHandlers.attToBlock`, negated: a rule applies to
`name` when its prefix is non-empty, its command list is non-empty and the
prefix is a prefix of the name. -/
def ruleMatches (name : String) (m : AttMatch) : Bool :=
  !(m.pfx == "") && !(m.cmd == []) && strStartsWith name m.pfx

/-- The placeholder-replacement loop of `attHandlers.attToBlock`: replace the
first occurrence of the placeholder by `name`; the Bool records whether one
was found. -/
def substArg (name : String) : List String → List String × Bool
  | [] => ([], false)
  | a :: rest =>
    if a = "${ARG}" then (name :: rest, true)
    else
      let r := substArg name rest
      (a :: r.1, r.2)

/-- The argument list handed to the external command for a matched rule:
`cmd[1:]` with the placeholder replaced, else with `name` appended. -/
def cmdArgs (m : AttMatch) (name : String) : List String :=
  let r := substArg name (m.cmd.drop 1)
  if r.2 then r.1 else r.1 ++ [name]

/-- The command line (program and arguments) that `attHandlers.attToBlock`
invokes for `name`, `none` when no rule matches (the resolution then falls
through to `contentBlockFromFile`).  `m.cmd` is non-empty whenever
`ruleMatches` holds, so `headD` only ever reads an existing head. -/
def handlerCommand : List AttMatch → String → Option (List String)
  | [], _ => none
  | m :: rest, name =>
    if ruleMatches name m then some (m.cmd.headD "" :: cmdArgs m name)
    else handlerCommand rest name

/-- How `attHandlers.attToBlock` wraps the captured standard output `b` of a
handler command into a text content block. -/
def wrapHandlerOutput (b : List Nat) : List Nat :=
  ensureNL (strBytes tagDocOpen ++ b) ++ strBytes tagDocClose

/-- Tail of `compact`: drop elements equal to the one last kept. -/
def compactTail (prev : String) : List String → List String
  | [] => []
  | b :: r => if b = prev then compactTail prev r else b :: compactTail b r

/-- Go `slices.Compact`: collapse consecutive runs of equal elements to their
first element, as applied to `args.attach` in `run`. -/
def compact : List String → List String
  | [] => []
  | a :: rest => a :: compactTail a rest

/-- The attachment-resolution loop of `run`: resolve the names in order,
stopping at the first error (`resolve` stands for `handler.attToBlock`, whose
outcome depends on external processes and the file system). -/
def resolveAttachments (resolve : String → Except Err ContentBlock) :
    List String → Except Err (List ContentBlock)
  | [] => .ok []
  | n :: rest => do
    let b ← resolve n
    let bs ← resolveAttachments resolve rest
    .ok (b :: bs)

/-- The content list that `run` sends: the resolved attachment units of the
compacted name list, with one text unit holding the prompt appended. -/
def runContent (resolve : String → Except Err ContentBlock) (names : List String)
    (prompt : List Nat) : Except Err (List ContentBlock) :=
  (resolveAttachments resolve (compact names)).map (· ++ [.text prompt])

/-- The subset of `runArgs` (current revision of `main.go`) that the request
builder reads.  The temperature is a `*float32` in Go; its value only flows
through untouched, so the model is polymorphic in the payload type `T`. -/
structure RunArgs (T : Type) where
  model : String
  t : Option T
  budget : Nat
deriving DecidableEq

/-- The payload of `thinking(budget)` in `main.go`: the
`{"thinking": {"type": "enabled", "budget_tokens": budget}}` document attached
as `AdditionalModelRequestFields`. -/
structure ThinkingField where
  ttype : String
  budgetTokens : Nat
deriving DecidableEq

/-- `main.go` `thinking`. -/
def thinkingField (budget : Nat) : ThinkingField := ⟨"enabled", budget⟩

/-- Go `int32(n)` for a natural `n` (two-complement wrap). -/
def int32ofNat (n : Nat) : Int :=
  let m : Nat := n % 2 ^ 32
  if m < 2 ^ 31 then (m : Int) else (m : Int) - 2 ^ 32

/-- The fields of `types.InferenceConfiguration` that `run` ever sets; a `Go`
nil pointer field is `none`. -/
structure InferenceConfig (T : Type) where
  maxTokens : Option Int := none
  temperature : Option T := none
deriving DecidableEq

/-- Message roles used by `run`. -/
inductive Role where
  | user | assistant
deriving DecidableEq

/-- `types.Message`. -/
structure Message where
  role : Role
  content : List ContentBlock
deriving DecidableEq

/-- The fields of `bedrockruntime.ConverseStreamInput` that `run` sets. -/
structure Request (T : Type) where
  modelId : String
  messages : List Message
  additionalModelRequestFields : Option ThinkingField := none
  inferenceConfig : Option (InferenceConfig T) := none
  system : List (List Nat) := []
deriving DecidableEq

/-- `main.go` `run`: the fallback model identifier. -/
def fallbackModelId : String := "anthropic.claude-3-sonnet-20240229-v1:0"

/-- `main.go` `run`: the default model identifier
(`cmp.Or(args.model, ...)` second argument). -/
def defaultModelId : String := "anthropic.claude-3-5-sonnet-20240620-v1:0"

/-- The model-identifier resolution of `run` (current revision, before the
request is built): the environment override or the default, with the `haiku`
shorthand expanded. -/
def resolveModelId (envModel : String) : String :=
  let m := if envModel = "" then defaultModelId else envModel
  if m = "haiku" then "anthropic.claude-3-haiku-20240307-v1:0" else m

/-- The system prompt of `run`: the formatted current date (`dateLine`, an
external input from the clock), then, when the configured system prompt file
was readable (`sysFile` is its content), its trimmed content after a `.\n`
separator, provided it is non-empty valid UTF-8. -/
def systemPromptBytes (dateLine : List Nat) (sysFile : Option (List Nat)) : List Nat :=
  match sysFile with
  | none => dateLine
  | some b =>
    let b := trimSpaceB b
    if b.length ≠ 0 ∧ utf8Valid b then dateLine ++ strBytes ".\n" ++ b
    else dateLine

/-- The request construction of `run` (current revision of `main.go`,
lines 149-182), with the statements in source order: model resolution, the
message, the thinking budget block, the system prompt, and the final
temperature condition `args.t != nil && args.budget != 0` exactly as written
in the source. -/
def buildRequest {T : Type} (args : RunArgs T) (contentBlocks : List ContentBlock)
    (dateLine : List Nat) (sysFile : Option (List Nat)) : Request T :=
  let modelId := resolveModelId args.model
  let input : Request T :=
    { modelId := modelId
      messages := [{ role := .user, content := contentBlocks }] }
  let input :=
    if args.budget ≠ 0 then
      { input with
          additionalModelRequestFields := some (thinkingField args.budget)
          inferenceConfig := some { maxTokens := some (int32ofNat (args.budget * 2)) } }
    else input
  let input := { input with system := [systemPromptBytes dateLine sysFile] }
  if args.t.isSome ∧ args.budget ≠ 0 then
    { input with inferenceConfig := some { temperature := args.t } }
  else input

/-- Whether a content block is a document block. -/
def isDocument : ContentBlock → Bool
  | .document _ _ _ => true
  | _ => false

/-- `claudeModelId` of the earlier revision of `main.go` (second section of
the source file). -/
def claudeModelId : String := "anthropic.claude-3-5-sonnet-20240620-v1:0"

/-- `oldClaudeModelId` of the earlier revision of `main.go`. -/
def oldClaudeModelId : String := "anthropic.claude-3-sonnet-20240229-v1:0"

/-- The model-selection loop of the earlier revision of `main.go`
(lines 638-655 of the source file): scan the content blocks; at the first
document block, log the substitution and downgrade to `oldClaudeModelId`,
then stop.  The second component counts the substitution log events. -/
def selectModelOld : List ContentBlock → String × Nat
  | [] => (claudeModelId, 0)
  | b :: rest => if isDocument b then (oldClaudeModelId, 1) else selectModelOld rest

/-- Outcome of one `cl.ConverseStream` call as `run` distinguishes them:
success, a `types.ThrottlingException`, or any other error. -/
inductive Outcome where
  | ok | throttle | otherErr
deriving DecidableEq

/-- Go `strconv.ParseBool`. -/
def parseBool (s : String) : Option Bool :=
  if s = "1" ∨ s = "t" ∨ s = "T" ∨ s = "TRUE" ∨ s = "true" ∨ s = "True" then some true
  else if s = "0" ∨ s = "f" ∨ s = "F" ∨ s = "FALSE" ∨ s = "false" ∨ s = "False" then some false
  else none

/-- `ok, _ := strconv.ParseBool(os.Getenv("LLMCLI_FALLBACK_ON_THROTTLE"))`:
the parse error is discarded, an unparsable value reads as `false`. -/
def fallbackEnabled (env : String) : Bool := (parseBool env).getD false

/-- The final outcome of the dispatch and the list of model identifiers
tried, in order. -/
structure DispatchTrace where
  outcome : Outcome
  tried : List String
deriving DecidableEq

/-- The dispatch of `run` (current revision, lines 183-195): one
`ConverseStream` call against `modelId`; when it reports throttling, the
opt-in environment flag parses true and the model is not already the fallback
model, exactly one more call against `fallbackModelId`, whose outcome is
final.  `send` stands for the transport (including its internal retries). -/
def dispatchWithFallback (send : String → Outcome) (env modelId : String) : DispatchTrace :=
  let o1 := send modelId
  if o1 = .throttle ∧ fallbackEnabled env ∧ modelId ≠ fallbackModelId then
    { outcome := send fallbackModelId, tried := [modelId, fallbackModelId] }
  else { outcome := o1, tried := [modelId] }

/-- One chunk produced by the response consumer (`chunk` in `main.go`). -/
structure Chunk where
  text : String
  thinking : Bool := false
deriving DecidableEq

/-- `types.TokenUsage` (the fields `run -v` prints). -/
structure TokenUsage where
  total : Nat
  input : Nat
  output : Nat
deriving DecidableEq

/-- The content-block delta payloads that `responseConsumer.Chunks`
distinguishes; `reasoningOther` and `other` stand for the delta variants its
type switches fall through silently. -/
inductive Delta where
  | text (s : String)
  | reasoningText (s : String)
  | reasoningRedacted
  | reasoningOther
  | other
deriving DecidableEq

/-- The stream event variants of `types.ConverseStreamOutput`; `unknown`
stands for any variant outside the switch (logged and ignored). -/
inductive StreamEvent where
  | contentBlockDelta (d : Delta)
  | contentBlockStop
  | messageStart
  | messageStop (stopReason : String)
  | metadata (usage : Option TokenUsage)
  | unknown
deriving DecidableEq

/-- The terminal error of the consumer: an abnormal stop reason
(`fmt.Errorf("stop reason: %s", s)`), or the transport error
`stream.Err()` reported after exhaustion. -/
inductive ConsumeErr where
  | abnormalStop (reason : String)
  | transport (msg : String)
deriving DecidableEq

/-- What is observable of `responseConsumer` after the iteration: the chunks
in order, the recorded error and the captured usage. -/
structure ConsumerResult where
  chunks : List Chunk
  err : Option ConsumeErr
  usage : Option TokenUsage
deriving DecidableEq

/-- `types.StopReasonEndTurn`. -/
def endTurn : String := "end_turn"

/-- The event loop of `responseConsumer.Chunks` (current revision of
`main.go`, lines 257-294), for a caller that keeps pulling: `events` are the
stream events in order, `streamErr` is what `stream.Err()` reports once the
events are exhausted, `acc` the chunks yielded so far and `u` the usage
captured so far. -/
def consumeGo (streamErr : Option String) :
    List StreamEvent → List Chunk → Option TokenUsage → ConsumerResult
  | [], acc, u => ⟨acc, streamErr.map .transport, u⟩
  | evt :: rest, acc, u =>
    match evt with
    | .contentBlockDelta (.text s) => consumeGo streamErr rest (acc ++ [⟨s, false⟩]) u
    | .contentBlockDelta (.reasoningText s) => consumeGo streamErr rest (acc ++ [⟨s, true⟩]) u
    | .contentBlockDelta .reasoningRedacted =>
      consumeGo streamErr rest (acc ++ [⟨"\n[…redacted thinking…]\n", true⟩]) u
    | .contentBlockDelta .reasoningOther => consumeGo streamErr rest acc u
    | .contentBlockDelta .other => consumeGo streamErr rest acc u
    | .contentBlockStop => consumeGo streamErr rest acc u
    | .messageStart => consumeGo streamErr rest acc u
    | .messageStop s =>
      if s ≠ endTurn then ⟨acc ++ [⟨"\n", false⟩], some (.abnormalStop s), u⟩
      else consumeGo streamErr rest (acc ++ [⟨"\n", false⟩]) u
    | .metadata us => consumeGo streamErr rest acc us
    | .unknown => consumeGo streamErr rest acc u

/-- `responseConsumer.Chunks` consumed to exhaustion. -/
def consume (events : List StreamEvent) (streamErr : Option String) : ConsumerResult :=
  consumeGo streamErr events [] none

/-- C1: the claim says the outbound request never carries both a temperature
and a thinking budget.  The code contradicts it (and its own comment at the
condition, which cites that very incompatibility): with a thinking budget of
1024 and a temperature supplied, the built request carries the thinking field
and a temperature at once, and the `MaxTokens` value the thinking branch had
set is dropped. -/
theorem c1_eval :
    (buildRequest (T := Nat) { model := "", t := some 1, budget := 1024 }
        [.text (strBytes "hi")] (strBytes "date") none).additionalModelRequestFields
      = some (thinkingField 1024)
    ∧ ((buildRequest (T := Nat) { model := "", t := some 1, budget := 1024 }
        [.text (strBytes "hi")] (strBytes "date") none).inferenceConfig.map
          (fun c => c.temperature)) = some (some 1)
    ∧ ((buildRequest (T := Nat) { model := "", t := some 1, budget := 1024 }
        [.text (strBytes "hi")] (strBytes "date") none).inferenceConfig.map
          (fun c => c.maxTokens)) = some none := by
  refine ⟨rfl, rfl, rfl⟩

/-- C9: when a temperature is supplied but no thinking budget is requested,
the built request carries no inference configuration at all, so the supplied
temperature is silently dropped. -/
theorem c9_no_inference_config {T : Type} (args : RunArgs T) (blocks : List ContentBlock)
    (dateLine : List Nat) (sysFile : Option (List Nat)) (h : args.budget = 0) :
    (buildRequest args blocks dateLine sysFile).inferenceConfig = none := by
  simp [buildRequest, h]

/-- Witness for C9 at a concrete input: temperature supplied, budget zero. -/
theorem c9_witness :
    (buildRequest (T := Nat) { model := "", t := some 1, budget := 0 }
      [] [] none).inferenceConfig = none :=
  c9_no_inference_config _ _ _ _ rfl

/-- C2, counterexample: in the current revision of `run`, an invocation whose
content units contain a document block keeps the default model identifier;
no substitution to the secondary identifier happens before dispatch. -/
theorem c2_counterexample :
    (buildRequest (T := Nat) { model := "", t := none, budget := 0 }
        [.document .pdf (strBytes "doc") (strBytes "x"), .text (strBytes "hi")]
        (strBytes "date") none).modelId = defaultModelId
    ∧ defaultModelId ≠ fallbackModelId := by
  refine ⟨rfl, by decide⟩

/-- C2, amended: the document-triggered downgrade lives in the earlier
revision of `main.go` (second section of the source file): there, the model
selection scans the content units and, when at least one is a document block,
replaces the model identifier with the secondary identifier exactly once,
logging the substitution once, and leaves the identifier unchanged when no
document block is present. -/
theorem c2_old_revision_substitution (blocks : List ContentBlock) :
    ((∃ b ∈ blocks, isDocument b = true) → selectModelOld blocks = (oldClaudeModelId, 1))
    ∧ ((∀ b ∈ blocks, isDocument b = false) → selectModelOld blocks = (claudeModelId, 0)) := by
  induction blocks with
  | nil =>
    refine ⟨?_, fun _ => rfl⟩
    rintro ⟨b, hb, -⟩
    exact absurd hb (List.not_mem_nil b)
  | cons a rest ih =>
    constructor
    · rintro ⟨b, hb, hdoc⟩
      by_cases ha : isDocument a
      · simp [selectModelOld, ha]
      · have hrest : b ∈ rest := by
          rcases List.mem_cons.mp hb with h | h
          · subst h; exact absurd hdoc (by simp [ha])
          · exact h
        simpa [selectModelOld, ha] using ih.1 ⟨b, hrest, hdoc⟩
    · intro hall
      have ha := hall a (List.mem_cons_self a rest)
      simpa [selectModelOld, ha] using ih.2 fun b hb => hall b (List.mem_cons_of_mem a hb)

/-- Witness for the amended C2 at a concrete input: one document block among
the content units. -/
theorem c2_witness :
    selectModelOld [.text (strBytes "hi"), .document .pdf [] []] = (oldClaudeModelId, 1) :=
  (c2_old_revision_substitution _).1 ⟨.document .pdf [] [], by simp, rfl⟩

/-- C3: on a `MessageStop` event the consumer yields exactly one trailing
newline chunk; for an abnormal stop reason it then records the terminal error
carrying that reason and produces no further chunks (the remaining events are
never consumed), while for the normal end-of-turn reason it records no error
from that event and goes on consuming. -/
theorem c3_message_stop (streamErr : Option String) (rest : List StreamEvent)
    (acc : List Chunk) (u : Option TokenUsage) (s : String) :
    (s ≠ endTurn →
      consumeGo streamErr (.messageStop s :: rest) acc u
        = ⟨acc ++ [⟨"\n", false⟩], some (.abnormalStop s), u⟩)
    ∧ (s = endTurn →
      consumeGo streamErr (.messageStop s :: rest) acc u
        = consumeGo streamErr rest (acc ++ [⟨"\n", false⟩]) u) := by
  constructor <;> intro h <;> simp [consumeGo, h]

/-- Witness for C3: the spec example `MessageStop("max_tokens")` yields the
newline chunk and the abnormal-stop error carrying `max_tokens`. -/
theorem c3_witness :
    consume [.messageStop "max_tokens"] none
      = ⟨[⟨"\n", false⟩], some (.abnormalStop "max_tokens"), none⟩ := by
  have h := (c3_message_stop none [] [] none "max_tokens").1 (by decide)
  simpa [consume] using h

/-- C4: the application-level fallback dispatch happens exactly once when and
only when the first dispatch throttles, the opt-in environment flag parses
true and the selected model differs from the fallback model; the second
dispatch targets the fallback model and its outcome is final (an error there
propagates, with no third dispatch); otherwise the single dispatch's outcome
stands. -/
theorem c4_throttle_fallback (send : String → Outcome) (env m : String) :
    ((dispatchWithFallback send env m).tried = [m, fallbackModelId]
      ↔ send m = .throttle ∧ fallbackEnabled env = true ∧ m ≠ fallbackModelId)
    ∧ (send m = .throttle ∧ fallbackEnabled env = true ∧ m ≠ fallbackModelId →
        (dispatchWithFallback send env m).outcome = send fallbackModelId)
    ∧ (¬(send m = .throttle ∧ fallbackEnabled env = true ∧ m ≠ fallbackModelId) →
        dispatchWithFallback send env m = ⟨send m, [m]⟩) := by
  by_cases h : send m = .throttle ∧ fallbackEnabled env = true ∧ m ≠ fallbackModelId
  · have hd : dispatchWithFallback send env m
        = ⟨send fallbackModelId, [m, fallbackModelId]⟩ := by
      simp only [dispatchWithFallback]
      rw [if_pos h]
    refine ⟨⟨fun _ => h, fun _ => by rw [hd]⟩, fun _ => by rw [hd], fun hc => absurd h hc⟩
  · have hd : dispatchWithFallback send env m = ⟨send m, [m]⟩ := by
      simp only [dispatchWithFallback]
      rw [if_neg h]
    refine ⟨⟨fun htr => ?_, fun hc => absurd hc h⟩, fun hc => absurd hc h, fun _ => hd⟩
    rw [hd] at htr
    exact absurd htr (by simp)

/-- Witness for C4 at a concrete input: both dispatches throttle, the flag is
`1`, the model starts at the default; the final outcome is the second
dispatch's throttle. -/
theorem c4_witness :
    (dispatchWithFallback (fun _ => Outcome.throttle) "1" defaultModelId).outcome
      = Outcome.throttle :=
  (c4_throttle_fallback (fun _ => Outcome.throttle) "1" defaultModelId).2.1
    ⟨rfl, by decide, by decide⟩

/-- C5: prompt assembly: empty or whitespace-only stdin together with an
empty CLI query fails with the empty-prompt error; a CLI query alone is
returned verbatim; stdin alone is returned verbatim; both together give the
stdin content wrapped in the `<document>` delimiter pair followed by the
query. -/
theorem c5_prompt_assembly :
    (∀ d : List Nat, trimSpaceB d = [] → readPrompt "" d = .error .emptyPrompt)
    ∧ readPrompt "q" [] = .ok (strBytes "q")
    ∧ readPrompt "" (strBytes "hello") = .ok (strBytes "hello")
    ∧ readPrompt "q" (strBytes "hello")
        = .ok (strBytes "<document>\nhello</document>\n\nq") := by
  refine ⟨fun d h => ?_, by decide, by decide, by decide⟩
  simp [readPrompt, h]

/-- Witness for C5 at a concrete input: whitespace-only stdin and empty
query fail with the empty-prompt error. -/
theorem c5_witness : readPrompt "" (strBytes " \t\n") = .error .emptyPrompt :=
  c5_prompt_assembly.1 (strBytes " \t\n") (by decide)

/-- C6: a file whose sniffed content type is not an image, whose resolved
document format is md, txt or csv and whose bytes are valid UTF-8 (within the
size limit) is never returned as a binary document unit: it becomes a text
unit holding the bytes wrapped in the `<document>` delimiter pair with an
embedded `<filename>` tag. -/
theorem c6_plain_text_formats (p : String) (b : List Nat) (ct : String)
    (fmt : DocumentFormat)
    (hsz : b.length ≤ 50 * 2 ^ 20)
    (himg : strStartsWith ct "image/" = false)
    (hfmt : docFormat? p ct = some fmt)
    (hmem : fmt = .md ∨ fmt = .txt ∨ fmt = .csv)
    (hutf : utf8Valid b = true) :
    contentBlockFromFile p b ct = .ok (.text (wrapFileText p b)) := by
  have h1 : ¬ (b.length > 50 * 2 ^ 20) := by omega
  simp [contentBlockFromFile, h1, himg, hfmt, hmem, hutf]
  omega

/-- Witness for C6 at a concrete input: a small valid-text `.txt` file. -/
theorem c6_witness :
    contentBlockFromFile "notes.txt" (strBytes "hi") "text/plain; charset=utf-8"
      = .ok (.text (wrapFileText "notes.txt" (strBytes "hi"))) :=
  c6_plain_text_formats _ _ _ .txt (by decide) (by decide) (by decide)
    (by decide) (by decide)

/-- C7: the attachment resolver fails with the size-limit error exactly when
the file content exceeds 50 MiB; at or below 50 * 2^20 bytes the size check
passes (any failure is then a different error). -/
theorem c7_size_limit (p : String) (b : List Nat) (ct : String) :
    contentBlockFromFile p b ct = .error .sizeLimit ↔ 50 * 2 ^ 20 < b.length := by
  constructor
  · intro h
    by_contra hlt
    have hlen : ¬ (b.length > 50 * 2 ^ 20) := by omega
    rw [contentBlockFromFile, if_neg hlen] at h
    repeat' split at h
    all_goals simp_all
  · intro h
    rw [contentBlockFromFile, if_pos (by omega)]

/-- Witness for C7 at a concrete input: a file one byte over the limit fails
with the size-limit error. -/
theorem c7_witness :
    contentBlockFromFile "x.pdf" (List.replicate (50 * 2 ^ 20 + 1) 0) "application/pdf"
      = .error .sizeLimit := by
  apply (c7_size_limit _ _ _).mpr
  rw [List.length_replicate]
  omega

/-- C8: the handler selects the first rule with a non-empty prefix, a
non-empty command list and a prefix of the name (a `find?` over the rules);
the invoked argument list is `cmd[1:]` with the first placeholder occurrence
replaced by the name when one is present, else with the name appended; on the
spec example rule the invoked command is `fetch https://x`. -/
theorem c8_handler_rules (rules : List AttMatch) (name : String) :
    (handlerCommand rules name
       = (rules.find? (ruleMatches name)).map (fun m => m.cmd.headD "" :: cmdArgs m name))
    ∧ (∀ l : List String, "${ARG}" ∉ l → substArg name l = (l, false))
    ∧ (∀ l1 l2 : List String, "${ARG}" ∉ l1 →
        substArg name (l1 ++ "${ARG}" :: l2) = (l1 ++ name :: l2, true))
    ∧ handlerCommand [⟨"https://", ["fetch", "${ARG}"]⟩] "https://x"
        = some ["fetch", "https://x"] := by
  refine ⟨?_, ?_, ?_, by decide⟩
  · induction rules with
    | nil => rfl
    | cons m rest ih =>
      by_cases hm : ruleMatches name m
      · simp [handlerCommand, List.find?, hm]
      · simp [handlerCommand, List.find?, hm, ih]
  · intro l hl
    induction l with
    | nil => rfl
    | cons a r ih =>
      have ha : a ≠ "${ARG}" := fun he => hl (he ▸ List.mem_cons_self a r)
      simp [substArg, ha, ih fun hr => hl (List.mem_cons_of_mem a hr)]
  · intro l1 l2 hl
    induction l1 with
    | nil => simp [substArg]
    | cons a r ih =>
      have ha : a ≠ "${ARG}" := fun he => hl (he ▸ List.mem_cons_self a r)
      simp [substArg, ha, ih fun hr => hl (List.mem_cons_of_mem a hr)]

/-- Witness for C8 at a concrete input: one placeholder after a literal
argument is replaced by the name. -/
theorem c8_witness : substArg "n" ["a", "${ARG}"] = (["a", "n"], true) := by
  have h := (c8_handler_rules [] "n").2.2.1 ["a"] [] (by decide)
  simpa using h

/-- C10: the outbound request of the current `run` has exactly one message,
its role is user, and its content is the resolved attachment units in order
followed by one final text unit holding the assembled prompt; the message
list and the content list are never empty, so the validation condition the
spec names cannot fire. -/
theorem c10_single_user_message {T : Type} (args : RunArgs T)
    (resolve : String → Except Err ContentBlock) (names : List String)
    (prompt : List Nat) (units : List ContentBlock) (dateLine : List Nat)
    (sysFile : Option (List Nat))
    (h : resolveAttachments resolve (compact names) = .ok units) :
    runContent resolve names prompt = .ok (units ++ [.text prompt])
    ∧ (buildRequest args (units ++ [.text prompt]) dateLine sysFile).messages
        = [{ role := .user, content := units ++ [.text prompt] }]
    ∧ units ++ [ContentBlock.text prompt] ≠ []
    ∧ (units ++ [ContentBlock.text prompt]).getLast? = some (ContentBlock.text prompt) := by
  refine ⟨?_, ?_, ?_, ?_⟩
  · rw [runContent, h]
    rfl
  · unfold buildRequest
    split <;> split <;> rfl
  · simp
  · simp [List.getLast?_concat]

/-- Witness for C10 at a concrete input: duplicate attachment names collapse
and the prompt text unit comes last. -/
theorem c10_witness :
    runContent (fun _ => .ok (.image .png [])) ["a", "a"] (strBytes "p")
      = .ok ([.image .png []] ++ [.text (strBytes "p")]) :=
  (c10_single_user_message (T := Nat) { model := "", t := none, budget := 0 }
    (fun _ => .ok (.image .png [])) ["a", "a"] (strBytes "p")
    [.image .png []] [] none (by rfl)).1
